import Mathlib

/-!
Verification of the aipbuilder geometry-component resolution engine.

The definitions below are shallow embeddings of the Python sources:
  - `src/aipbuilder/dms_to_decimal.py`   (DMS coordinate codec)
  - `src/aipbuilder/features/airspace.py` (grammar matchers, dispatcher,
     polygon resolution engine, flattening)
  - `src/aipbuilder/country_borders.py`  (border segment extraction)
  - `src/airspace_renderer/curved_geometries.py` (arc/circle sampling)

Machine floats are modelled as `ℚ` where the code only performs exact
arithmetic on the values of interest, and as `ℝ` for the trigonometric
arc/circle sampling.  Python exceptions are modelled with `Option`/`Except`.
-/

/-! ### DMS coordinate codec (`dms_to_decimal.py`)

The regex
`^(?P<degLat>\d\x7b2\x7d) (?P<minLat>\d\x7b2\x7d) (?P<secLat>[\d\.]\x7b2,5\x7d) (?P<hemLat>N|S) (/ )?(?P<degLon>\d\x7b3\x7d) ... (?P<hemLon>E|W)$`
is embedded as a deterministic lexer: every quantifier in the regex is
either fixed-width, or a greedy class run whose follower (a space) is
outside the class, so backtracking can never produce a different outcome.
-/

/-- The captured groups of a successful `_REGEX.fullmatch`. -/
structure DmsRaw where
  degLat : List Char
  minLat : List Char
  secLat : List Char
  hemLat : Char
  degLon : List Char
  minLon : List Char
  secLon : List Char
  hemLon : Char
deriving DecidableEq, Repr

/-- Character class `[\d\.]` used for the seconds fields. -/
def isSecChar (c : Char) : Bool := c.isDigit || c = '.'

/-- `\d\x7bn\x7d`: exactly `n` digits; returns the digits and the rest. -/
def takeDigits : Nat → List Char → Option (List Char × List Char)
  | 0, rest => some ([], rest)
  | n + 1, c :: rest =>
    if c.isDigit then (takeDigits n rest).map fun p => (c :: p.1, p.2) else none
  | _ + 1, [] => none

/-- A single literal character of the regex. -/
def expectChar (c : Char) : List Char → Option (List Char)
  | d :: rest => if d = c then some rest else none
  | [] => none

/-- `[\d\.]\x7b2,5\x7d` followed (in the regex) by a space: the greedy class
run is maximal, and must have length 2..5. -/
def takeSeconds (s : List Char) : Option (List Char × List Char) :=
  let run := s.takeWhile isSecChar
  if 2 ≤ run.length && run.length ≤ 5 then some (run, s.drop run.length)
  else none

/-- `(?P<hemLat>N|S)`. -/
def takeHemNS : List Char → Option (Char × List Char)
  | c :: rest => if c = 'N' || c = 'S' then some (c, rest) else none
  | [] => none

/-- `(?P<hemLon>E|W)`. -/
def takeHemEW : List Char → Option (Char × List Char)
  | c :: rest => if c = 'E' || c = 'W' then some (c, rest) else none
  | [] => none

/-- `(/ )?`: an optional slash-space; a slash not followed by a space can be
matched neither by the group nor by the following `\d\x7b3\x7d`. -/
def skipOptSlash : List Char → Option (List Char)
  | '/' :: ' ' :: rest => some rest
  | '/' :: _ => none
  | rest => some rest

/-- `_REGEX.fullmatch`: the whole anchored DMS regex. -/
def dmsLex (s : List Char) : Option DmsRaw := do
  let (dla, r) ← takeDigits 2 s
  let r ← expectChar ' ' r
  let (mla, r) ← takeDigits 2 r
  let r ← expectChar ' ' r
  let (sla, r) ← takeSeconds r
  let r ← expectChar ' ' r
  let (hla, r) ← takeHemNS r
  let r ← expectChar ' ' r
  let r ← skipOptSlash r
  let (dlo, r) ← takeDigits 3 r
  let r ← expectChar ' ' r
  let (mlo, r) ← takeDigits 2 r
  let r ← expectChar ' ' r
  let (slo, r) ← takeSeconds r
  let r ← expectChar ' ' r
  let (hlo, r) ← takeHemEW r
  if r = [] then
    some ⟨dla, mla, sla, hla, dlo, mlo, slo, hlo⟩
  else none

/-- `is_valid_dms_format`: `_REGEX.fullmatch(dms)` (truthiness of the match). -/
def is_valid_dms_format (s : List Char) : Bool := (dmsLex s).isSome

/-- Numeric value of a digit string (used by both `int()` and `float()`). -/
def digitsVal (l : List Char) : Nat :=
  l.foldl (fun acc c => 10 * acc + (c.toNat - '0'.toNat)) 0

/-- Python `int()` on a captured group: succeeds on a nonempty digit string. -/
def parseNatDigits (l : List Char) : Option Nat :=
  if !l.isEmpty && l.all Char.isDigit then some (digitsVal l) else none

/-- Python `float()` on a string drawn from the class `[\d\.]`: at most one
dot, at least one digit somewhere. -/
def parseFloatQ (l : List Char) : Option ℚ :=
  match l.splitOn '.' with
  | [ip] => if !ip.isEmpty && ip.all Char.isDigit then some (digitsVal ip : ℚ) else none
  | [ip, fp] =>
    if (!ip.isEmpty || !fp.isEmpty) && ip.all Char.isDigit && fp.all Char.isDigit then
      some ((digitsVal ip : ℚ) + (digitsVal fp : ℚ) / 10 ^ fp.length)
    else none
  | _ => none

/-- `dms_to_decimal(d, m, s) = d + m / 60 + s / 3600`. -/
def dms_to_decimal (d m s : ℚ) : ℚ := d + m / 60 + s / 3600

/-- `dms_match_to_decimal(match)`: longitude first, latitude second, each
negated unless the hemisphere letter is E (resp. N). -/
def dms_match_to_decimal (raw : DmsRaw) : Option (ℚ × ℚ) := do
  let dLon ← parseNatDigits raw.degLon
  let mLon ← parseNatDigits raw.minLon
  let sLon ← parseFloatQ raw.secLon
  let dLat ← parseNatDigits raw.degLat
  let mLat ← parseNatDigits raw.minLat
  let sLat ← parseFloatQ raw.secLat
  let x := dms_to_decimal dLon mLon sLon * (if raw.hemLon = 'E' then 1 else -1)
  let y := dms_to_decimal dLat mLat sLat * (if raw.hemLat = 'N' then 1 else -1)
  some (x, y)

/-- `dms_string_to_decimal`: full match, then conversion; `none` models the
`ValueError` on a non-matching string. -/
def dms_string_to_decimal (s : List Char) : Option (ℚ × ℚ) :=
  (dmsLex s).bind dms_match_to_decimal

/-! ### Component grammar matchers (`features/airspace.py`)

Each `REGEX.fullmatch` is embedded by its language semantics: the string
matches iff it decomposes into the regex's literal pieces and class runs.
All the decompositions are searched exhaustively, which is exactly what the
backtracking regex engine does on an anchored pattern.
-/

/-- One of the four registered component kinds. -/
inductive GKind where
  | vertex
  | circle
  | arc
  | border
deriving DecidableEq, Repr

/-- `[\d NSEW/]` — the `CIRCLE` center class (note: no dot). -/
def isCircleCenterChar (c : Char) : Bool :=
  c.isDigit || c = ' ' || c = 'N' || c = 'S' || c = 'E' || c = 'W' || c = '/'

/-- `[\d NSEW/\.]` — the `ARC` center class (dot included). -/
def isArcCenterChar (c : Char) : Bool := isCircleCenterChar c || c = '.'

/-- `[\d\.]` — the radius class. -/
def isRadiusChar (c : Char) : Bool := c.isDigit || c = '.'

/-- `[A-Z\+]` — the border name class. -/
def isBorderNameChar (c : Char) : Bool := ('A' ≤ c && c ≤ 'Z') || c = '+'

/-- Peel `pre ++ inner ++ ")"` off an anchored pattern `^pre...\)$`. -/
def stripWrap (pre s : List Char) : Option (List Char) :=
  let rest := s.drop pre.length
  if s.take pre.length == pre && rest.getLast? == some ')' then
    some rest.dropLast
  else none

/-- All decompositions `mid = l ++ ", " ++ r` (the regex group separator). -/
def sepSplits (mid : List Char) : List (List Char × List Char) :=
  (List.range (mid.length + 1)).filterMap fun k =>
    if (mid.drop k).take 2 == [',', ' '] then some (mid.take k, mid.drop (k + 2))
    else none

/-- `CircleInputGeometry.REGEX.fullmatch`:
`^CIRCLE\((?P<center>[\d NSEW/]+), (?P<radiusNm>[\d\.]+)\)$`. -/
def circleMatches (s : List Char) : Bool :=
  match stripWrap "CIRCLE(".toList s with
  | some mid =>
    (sepSplits mid).any fun cr =>
      !cr.1.isEmpty && cr.1.all isCircleCenterChar &&
      !cr.2.isEmpty && cr.2.all isRadiusChar
  | none => false

/-- `ArcInputGeometry.REGEX.fullmatch`:
`^ARC\((?P<center>[\d NSEW/\.]+), (?P<radiusNm>[\d\.]+), (?P<direction>cw|ccw)\)$`. -/
def arcMatches (s : List Char) : Bool :=
  match stripWrap "ARC(".toList s with
  | some mid =>
    (sepSplits mid).any fun cr =>
      !cr.1.isEmpty && cr.1.all isArcCenterChar &&
      (sepSplits cr.2).any fun rd =>
        !rd.1.isEmpty && rd.1.all isRadiusChar &&
        (rd.2 == "cw".toList || rd.2 == "ccw".toList)
  | none => false

/-- `BorderInputGeometry.REGEX.fullmatch`:
`^BORDER\((?P<borderName>[A-Z\+]+)(?P<invert>, I)?\)$`. -/
def borderMatches (s : List Char) : Bool :=
  match stripWrap "BORDER(".toList s with
  | some mid =>
    (!mid.isEmpty && mid.all isBorderNameChar) ||
    ((mid.drop (mid.length - 3) == [',', ' ', 'I']) &&
      !(mid.take (mid.length - 3)).isEmpty &&
      (mid.take (mid.length - 3)).all isBorderNameChar)
  | none => false

/-- `_parse_polygon_component`'s matcher cascade over
`DEFAULT_INPUT_GEOMETRY_TYPES` (insertion order: vertex, circle, arc,
border); `none` models the `ValueError` (UnrecognizedComponent). -/
def dispatchKind (s : List Char) : Option GKind :=
  if is_valid_dms_format s then some .vertex
  else if circleMatches s then some .circle
  else if arcMatches s then some .arc
  else if borderMatches s then some .border
  else none

/-! ### Polygon resolution engine (`_parse_polygon_definition`)

The engine is embedded over an arbitrary point type `α` and an arbitrary
family `parseK` of per-component parse results (the geometry payload is
irrelevant to the work-list dynamics).  The component texts are abstracted
to their kinds: the dispatcher's matcher cascade assigns exactly one kind
to each well-formed component, and `can_process`/`parse` only depend on
that kind and the anchors.

Python's `for i in worklist: ... worklist.remove(i)` iterates by an
internal position counter that is not adjusted when the current element is
removed, so the element that slides into the freed position is skipped;
`runPassAux` reproduces this with the explicit counter `c`.  The recursion
is driven by a fuel argument so that the definitions stay kernel-reducible;
`worklist.length - c` strictly decreases at every step, so any fuel of at
least `worklist.length` behaves like the unbounded Python loop.
-/

/-- `can_process(previous, subsequent)` of the four input geometry types:
Vertex and Circle never need anchors, Arc and Border need both. -/
def canProcess (k : GKind) (previous subsequent : Option α) : Bool :=
  match k with
  | .vertex => true
  | .circle => true
  | .arc => previous.isSome && subsequent.isSome
  | .border => previous.isSome && subsequent.isSome

/-- Mutable state of `_parse_polygon_definition`: the per-index slots and
the work-list `component_indices_to_process`. -/
structure RState (α : Type) where
  vertices : List (Option (List α))
  worklist : List Nat
deriving DecidableEq

/-- `previous_vertices[-1] if previous_vertices else None`: `None` both for
an unresolved slot and for a slot resolved to an empty list. -/
def anchorPrev (vertices : List (Option (List α))) (n i : Nat) : Option α :=
  (vertices.getD ((i + n - 1) % n) none).bind List.getLast?

/-- `subsequent_vertices[0] if subsequent_vertices else None`. -/
def anchorNext (vertices : List (Option (List α))) (n i : Nat) : Option α :=
  (vertices.getD ((i + 1) % n) none).bind List.head?

/-- `_parse_polygon_component` for component `i`: `none` is the
`(None, None)` "not yet resolvable" signal, `some pts` a successful parse.
`parseK i prev next` is the point list the kind's parser returns. -/
def tryResolve (comps : List GKind) (parseK : Nat → Option α → Option α → List α)
    (st : RState α) (i : Nat) : Option (List α) :=
  let previous := anchorPrev st.vertices comps.length i
  let subsequent := anchorNext st.vertices comps.length i
  if canProcess (comps.getD i .vertex) previous subsequent then
    some (parseK i previous subsequent)
  else none

/-- One pass of `for i in component_indices_to_process`, starting at
iterator position `c` (Python semantics: `remove` shifts the tail left but
the position counter still advances). -/
def runPassAux (comps : List GKind) (parseK : Nat → Option α → Option α → List α) :
    Nat → Nat → RState α → RState α
  | 0, _, st => st
  | fuel + 1, c, st =>
    if h : c < st.worklist.length then
      let i := st.worklist.get ⟨c, h⟩
      match tryResolve comps parseK st i with
      | some pts =>
        runPassAux comps parseK fuel (c + 1)
          ⟨st.vertices.set i (some pts), st.worklist.erase i⟩
      | none => runPassAux comps parseK fuel (c + 1) st
    else st

/-- One full pass of the inner `for` loop. -/
def runPass (comps : List GKind) (parseK : Nat → Option α → Option α → List α)
    (st : RState α) : RState α :=
  runPassAux comps parseK st.worklist.length 0 st

/-- `k` iterations of the outer `while` loop, ignoring its exit condition
(used to count passes). -/
def resolvePasses (comps : List GKind) (parseK : Nat → Option α → Option α → List α) :
    Nat → RState α → RState α
  | 0, st => st
  | k + 1, st => resolvePasses comps parseK k (runPass comps parseK st)

/-- The outer `while len(component_indices_to_process):` loop;
`.error` models the `RuntimeError` raised when a pass makes no progress. -/
def resolveLoopFuel (comps : List GKind) (parseK : Nat → Option α → Option α → List α) :
    Nat → RState α → Except String (List (Option (List α)))
  | 0, _ => .error "fuel exhausted"
  | fuel + 1, st =>
    if st.worklist.isEmpty then .ok st.vertices
    else
      let lenBefore := st.worklist.length
      let st2 := runPass comps parseK st
      if st2.worklist.length = lenBefore then
        .error ("no progress made with " ++ toString lenBefore ++ " components remaining")
      else resolveLoopFuel comps parseK fuel st2

/-- `_parse_polygon_definition`'s resolution loop.  Every pass either
leaves the work-list length unchanged (the error branch) or shrinks it, so
`worklist.length + 1` fuel always suffices: the "fuel exhausted" branch is
unreachable, which `resolveLoopFuel_fuel_irrelevant` makes precise. -/
def resolveLoop (comps : List GKind) (parseK : Nat → Option α → Option α → List α)
    (st : RState α) : Except String (List (Option (List α))) :=
  resolveLoopFuel comps parseK (st.worklist.length + 1) st

/-- Initial state: all slots `None`, work-list `list(range(N))`. -/
def initState (α : Type) (n : Nat) : RState α :=
  ⟨List.replicate n none, List.range n⟩

/-! ### Flattening (`_flatten_vertices`, `_get_border_entry_point_indices`)

Python arithmetic on the entry-point indices is over `int`, so the set can
hold `-1` (border at index 0) and `N` (border at the last index); list
indexing with a negative index counts from the end, and an index `≥ N`
raises `IndexError`.  `pyIndex` embeds that indexing discipline.
-/

/-- Python `l[i]` for `i : Int`: negative indices count from the end,
out-of-range is `none` (`IndexError`). -/
def pyIndex (l : List α) (i : Int) : Option α :=
  if 0 ≤ i then l.get? i.toNat
  else if -(l.length : Int) ≤ i then l.get? ((l.length : Int) + i).toNat
  else none

/-- `_get_border_entry_point_indices`: for every border index `b` add
`b - 1` and `b + 1` (no modulo); `none` models a failure of the
`assert input_geometry_types[bi] == "vertex"` loop (either the
`AssertionError` or the `IndexError` raised by the subscript itself). -/
def get_border_entry_point_indices (types : List GKind) : Option (List Int) :=
  let border_indices :=
    (List.range types.length).filter fun i => types.getD i .vertex == .border
  let entry := (border_indices.flatMap fun b => [(b : Int) - 1, (b : Int) + 1]).dedup
  if entry.all fun bi => pyIndex types bi == some .vertex then some entry
  else none

/-- `_flatten_vertices`: concatenate the slots whose index is not in the
entry-point set (the `enumerate` index is a nonnegative `int`). -/
def flatten_vertices (vertices : List (List α)) (types : List GKind) : Option (List α) :=
  match get_border_entry_point_indices types with
  | none => none
  | some entry =>
    some (((vertices.enum.filter fun iv => !entry.contains (iv.1 : Int)).map
      fun iv => iv.2).flatten)

/-- Modelled from the spec, for comparison with `flatten_vertices`:
"concatenate all Resolved point sequences in index order, excluding any
Vertex-kind slot that is immediately adjacent (previous or next index,
circularly) to a Border-kind slot". -/
def borderAdjacentCircular (types : List GKind) (i : Nat) : Bool :=
  types.getD ((i + 1) % types.length) .vertex == .border ||
  types.getD ((i + types.length - 1) % types.length) .vertex == .border

/-- Modelled from the spec: the circular-exclusion flattening. -/
def flatten_vertices_spec (vertices : List (List α)) (types : List GKind) : List α :=
  ((vertices.enum.filter fun iv =>
      !(types.getD iv.1 .vertex == .vertex && borderAdjacentCircular types iv.1)).map
    fun iv => iv.2).flatten

/-! ### Border segment extraction (`country_borders.py`)

Coordinates are modelled as `ℚ × ℚ` (the extraction itself performs no
arithmetic on them).  The `STRtree.nearest` spatial query returns the index
of some vertex at minimal Euclidean distance; `nearestIdx` realizes it as
the first such index.  The geodesic `get_distance_m` is external (pyproj),
so it is passed in as an arbitrary distance function `distM`.
-/

/-- Squared Euclidean distance (order-equivalent to the planar distance the
STRtree query minimizes). -/
def sqDistQ (p q : ℚ × ℚ) : ℚ := (p.1 - q.1) ^ 2 + (p.2 - q.2) ^ 2

/-- Index of the first nearest border vertex (`border_point_tree.nearest`). -/
def nearestIdx (pts : List (ℚ × ℚ)) (p : ℚ × ℚ) : Nat :=
  (List.range pts.length).foldl
    (fun best i =>
      if sqDistQ (pts.getD i (0, 0)) p < sqDistQ (pts.getD best (0, 0)) p then i
      else best)
    0

/-- `_extract_points_in_range`: `[start..end]`, wrapping past the end of
the polyline when `end < start`. -/
def extract_points_in_range [Inhabited α] (start_index end_index : Nat) (points : List α) :
    List α :=
  if end_index ≥ start_index then
    (List.range' start_index (end_index + 1 - start_index)).map fun i => points.getD i default
  else
    ((List.range' start_index (points.length - start_index)).map fun i => points.getD i default) ++
    ((List.range' 0 (end_index + 1)).map fun i => points.getD i default)

/-- `_extract_points_outside_range`: the complementary arc, then reversed. -/
def extract_points_outside_range [Inhabited α] (start_index end_index : Nat)
    (points : List α) : List α :=
  (if start_index ≥ end_index then
    (List.range' end_index (start_index + 1 - end_index)).map fun i => points.getD i default
  else
    ((List.range' end_index (points.length - end_index)).map fun i => points.getD i default) ++
    ((List.range' 0 (start_index + 1)).map fun i => points.getD i default)).reverse

/-- `_points_equal` with its default tolerance `1e-9`. -/
def pointsEqual (p1 p2 : ℚ × ℚ) : Bool :=
  |p1.1 - p2.1| < 1 / 1000000000 && |p1.2 - p2.2| < 1 / 1000000000

/-- `get_border_segment`: `.ok none` is the `None` (NoSegment) result,
`.error` models the `ValueError` (OutOfTolerance) raised by
`_assert_points_close_enough` and the two postcondition `assert`s. -/
def get_border_segment (start endp : ℚ × ℚ) (border : List (ℚ × ℚ)) (invert : Bool)
    (distM : ℚ × ℚ → ℚ × ℚ → ℚ) (tolerance_m : ℚ) :
    Except String (Option (List (ℚ × ℚ))) :=
  let border_points := border
  let start_point_index := nearestIdx border_points start
  let end_point_index := nearestIdx border_points endp
  if start_point_index = end_point_index then .ok none
  else
    let border_start_point := border_points.getD start_point_index (0, 0)
    let border_end_point := border_points.getD end_point_index (0, 0)
    if distM start border_start_point > tolerance_m then
      .error "entry point is too far from closest border point"
    else if distM endp border_end_point > tolerance_m then
      .error "entry point is too far from closest border point"
    else
      let segment_point_coords :=
        if !invert then
          extract_points_in_range start_point_index end_point_index border_points
        else
          extract_points_outside_range start_point_index end_point_index border_points
      match segment_point_coords.head?, segment_point_coords.getLast? with
      | some h, some l =>
        if pointsEqual h border_start_point && pointsEqual l border_end_point &&
            !segment_point_coords.isEmpty then
          .ok (some segment_point_coords)
        else .error "AssertionError"
      | _, _ => .error "AssertionError"

/-! ### Curved geometries (`curved_geometries.py`)

The planar LV95 math is embedded over `ℝ`.  The pyproj projection into and
out of the metric grid is external, so the two transforms are passed in as
arbitrary functions; everything the claims speak about happens in the
metric grid.
-/

/-- The `direction` literal `cw`/`ccw`. -/
inductive ArcDir where
  | cw
  | ccw
deriving DecidableEq, Repr

open Real in
/-- `math.atan2(y, x)` on reals (no signed zeros or infinities). -/
noncomputable def atan2 (y x : ℝ) : ℝ :=
  if 0 < x then arctan (y / x)
  else if x < 0 then
    if 0 ≤ y then arctan (y / x) + π else arctan (y / x) - π
  else
    if 0 < y then π / 2 else if y < 0 then -(π / 2) else 0

/-- `_get_azimuth_rad(center, edge) = atan2(dy, dx)`. -/
noncomputable def get_azimuth_rad (center edge : ℝ × ℝ) : ℝ :=
  atan2 (edge.2 - center.2) (edge.1 - center.1)

/-- `_get_unit_vector(azimuth) = (cos, sin)`. -/
noncomputable def get_unit_vector (azimuth_rad : ℝ) : ℝ × ℝ :=
  (Real.cos azimuth_rad, Real.sin azimuth_rad)

/-- `_get_edge_point`: center plus `radius_m` times the unit vector. -/
noncomputable def get_edge_point (center : ℝ × ℝ) (azimuth_rad radius_m : ℝ) : ℝ × ℝ :=
  (center.1 + (get_unit_vector azimuth_rad).1 * radius_m,
   center.2 + (get_unit_vector azimuth_rad).2 * radius_m)

/-- `_get_total_angle_rad`: the signed difference, plus `2π` once if it is
negative.  (The function's `assert angle >= 0` is established as a theorem
for the azimuths the arc generator feeds it.) -/
noncomputable def get_total_angle_rad (start_angle_rad end_angle_rad : ℝ)
    (direction : ArcDir) : ℝ :=
  let angle :=
    if direction = .ccw then end_angle_rad - start_angle_rad
    else start_angle_rad - end_angle_rad
  if angle < 0 then angle + 2 * Real.pi else angle

/-- `_nm_to_m(value_nm) = value_nm * 1852`. -/
def nm_to_m (value_nm : ℝ) : ℝ := value_nm * 1852

/-- The `for _ in range(intermediate_points)` loop of
`_arc_around_point_grid_metric`: increment the running angle by the signed
step, then append the edge point. -/
noncomputable def arcLoop (center : ℝ × ℝ) (radius_m inc sign : ℝ) :
    Nat → ℝ → List (ℝ × ℝ)
  | 0, _ => []
  | n + 1, angle =>
    get_edge_point center (angle + inc * sign) radius_m ::
      arcLoop center radius_m inc sign n (angle + inc * sign)

/-- `_arc_around_point_grid_metric`. -/
noncomputable def arc_around_point_grid_metric (center start endp : ℝ × ℝ)
    (radius_m : ℝ) (direction : ArcDir) (intermediate_points : Nat) : List (ℝ × ℝ) :=
  let azimuth_start_rad := get_azimuth_rad center start
  let azimuth_end_rad := get_azimuth_rad center endp
  let total_angle_rad := get_total_angle_rad azimuth_start_rad azimuth_end_rad direction
  let angle_increment_rad := total_angle_rad / (1 + intermediate_points)
  get_edge_point center azimuth_start_rad radius_m ::
    (arcLoop center radius_m angle_increment_rad
        (if direction = .ccw then 1 else -1) intermediate_points azimuth_start_rad ++
      [get_edge_point center azimuth_end_rad radius_m])

/-- `arc_around_point`: project the three anchors, sample in the grid,
reproject every sample (`proj`/`inv` stand for the pyproj transforms). -/
noncomputable def arc_around_point (proj inv : ℝ × ℝ → ℝ × ℝ)
    (center_wgs84 start_wgs84 end_wgs84 : ℝ × ℝ) (radius_nm : ℝ)
    (direction : ArcDir) (intermediate_points : Nat) : List (ℝ × ℝ) :=
  (arc_around_point_grid_metric (proj center_wgs84) (proj start_wgs84) (proj end_wgs84)
    (nm_to_m radius_nm) direction intermediate_points).map inv

/-- The `for _ in range(intermediate_points)` loop of
`_circle_around_point_grid_metric`: append, then advance the azimuth. -/
noncomputable def circleLoop (center : ℝ × ℝ) (radius_m inc : ℝ) :
    Nat → ℝ → List (ℝ × ℝ)
  | 0, _ => []
  | n + 1, azimuth =>
    get_edge_point center azimuth radius_m :: circleLoop center radius_m inc n (azimuth + inc)

/-- `_circle_around_point_grid_metric`. -/
noncomputable def circle_around_point_grid_metric (center : ℝ × ℝ) (radius_m : ℝ)
    (intermediate_points : Nat) : List (ℝ × ℝ) :=
  circleLoop center radius_m (2 * Real.pi / intermediate_points) intermediate_points 0

/-- `circle_around_point`. -/
noncomputable def circle_around_point (proj inv : ℝ × ℝ → ℝ × ℝ)
    (center_wgs84 : ℝ × ℝ) (radius_nm : ℝ) (intermediate_points : Nat) : List (ℝ × ℝ) :=
  (circle_around_point_grid_metric (proj center_wgs84) (nm_to_m radius_nm)
    intermediate_points).map inv

/-- `ArcInputGeometry.parse`: always calls `arc_around_point` with
`intermediate_points = 100`. -/
noncomputable def ArcInputGeometry_parse (proj inv : ℝ × ℝ → ℝ × ℝ)
    (center previous subsequent : ℝ × ℝ) (radius_nm : ℝ) (direction : ArcDir) :
    List (ℝ × ℝ) :=
  arc_around_point proj inv center previous subsequent radius_nm direction 100

/-- `CircleInputGeometry.parse`: always calls `circle_around_point` with
`intermediate_points = 100`. -/
noncomputable def CircleInputGeometry_parse (proj inv : ℝ × ℝ → ℝ × ℝ)
    (center : ℝ × ℝ) (radius_nm : ℝ) : List (ℝ × ℝ) :=
  circle_around_point proj inv center radius_nm 100

/-- Squared planar distance in the metric grid. -/
noncomputable def sqDistR (p q : ℝ × ℝ) : ℝ := (p.1 - q.1) ^ 2 + (p.2 - q.2) ^ 2

deriving instance DecidableEq for Except

/-! ### Engine lemmas and theorems -/

/-- A pass never grows the work-list. -/
theorem runPassAux_length_le {α : Type} (comps : List GKind)
    (parseK : Nat → Option α → Option α → List α) :
    ∀ (fuel c : Nat) (st : RState α),
      (runPassAux comps parseK fuel c st).worklist.length ≤ st.worklist.length := by
  intro fuel
  induction fuel with
  | zero => intro c st; simp [runPassAux]
  | succ n ih =>
    intro c st
    simp only [runPassAux]
    split
    · split
      · exact le_trans (ih _ _) (List.Sublist.length_le (List.erase_sublist _ _))
      · exact ih _ _
    · exact le_rfl

/-- The loop's fuel is irrelevant as soon as it exceeds the work-list
length, so `resolveLoop`'s choice `worklist.length + 1` behaves exactly
like Python's unbounded `while`. -/
theorem resolveLoopFuel_fuel_irrelevant {α : Type} (comps : List GKind)
    (parseK : Nat → Option α → Option α → List α) (st : RState α) (f1 f2 : Nat)
    (h1 : st.worklist.length < f1) (h2 : st.worklist.length < f2) :
    resolveLoopFuel comps parseK f1 st = resolveLoopFuel comps parseK f2 st := by
  match f1, f2, h1, h2 with
  | a + 1, b + 1, h1, h2 =>
    rw [resolveLoopFuel, resolveLoopFuel]
    by_cases he : st.worklist.isEmpty
    · simp [he]
    · simp only [he, Bool.false_eq_true, if_false]
      by_cases hl : (runPass comps parseK st).worklist.length = st.worklist.length
      · simp [hl]
      · have hle : (runPass comps parseK st).worklist.length ≤ st.worklist.length :=
          runPassAux_length_le comps parseK _ _ st
        simp only [hl, if_false]
        exact resolveLoopFuel_fuel_irrelevant comps parseK (runPass comps parseK st) a b
          (by omega) (by omega)
termination_by st.worklist.length
decreasing_by
  exact lt_of_le_of_ne (runPassAux_length_le comps parseK _ _ st) hl

/-- C1 counterexample: for the concrete ring `[Vertex, Arc, Vertex, Border]`
(each parser returning a one-point list), two full passes of the outer
`while` loop do NOT resolve every slot: the Border slot is still pending. -/
theorem resolution_two_pass_cex :
    ¬ ((resolvePasses [GKind.vertex, .arc, .vertex, .border]
        (fun i _ _ => [((i : Int), 0)]) 2 (initState (Int × Int) 4)).worklist = []) := by
  decide

/-- C1 (amended): a ring `[Vertex, Arc, Vertex, Border]` whose Vertex
parsers return nonempty point lists resolves every slot in at most 3 full
passes of the work-list loop, not 2: pass one resolves only the slots at
even work-list positions (Python's `remove` during iteration skips the
element that slides into the freed position, so the Arc is skipped), pass
two resolves the Arc, and only pass three resolves the Border. -/
theorem resolution_convergence_three_passes (α : Type)
    (parseK : Nat → Option α → Option α → List α)
    (h0 : parseK 0 none none ≠ []) (h2 : parseK 2 none none ≠ []) :
    (resolvePasses [GKind.vertex, .arc, .vertex, .border] parseK 2
        (initState α 4)).worklist = [3]
    ∧ (resolvePasses [GKind.vertex, .arc, .vertex, .border] parseK 3
        (initState α 4)).worklist = [] := by
  have e0l : (parseK 0 none none).getLast?.isSome = true := List.getLast?_isSome.mpr h0
  have e0h : (parseK 0 none none).head?.isSome = true := List.head?_isSome.mpr h0
  have e2l : (parseK 2 none none).getLast?.isSome = true := List.getLast?_isSome.mpr h2
  have e2h : (parseK 2 none none).head?.isSome = true := List.head?_isSome.mpr h2
  have p1 : runPass [GKind.vertex, .arc, .vertex, .border] parseK (initState α 4)
      = ⟨[some (parseK 0 none none), none, some (parseK 2 none none), none], [1, 3]⟩ := by
    simp [runPass, runPassAux, tryResolve, anchorPrev, anchorNext, canProcess, initState,
      show List.range 4 = [0, 1, 2, 3] from rfl]
  have p2 : runPass [GKind.vertex, .arc, .vertex, .border] parseK
      ⟨[some (parseK 0 none none), none, some (parseK 2 none none), none], [1, 3]⟩
      = ⟨[some (parseK 0 none none),
          some (parseK 1 ((parseK 0 none none).getLast?) ((parseK 2 none none).head?)),
          some (parseK 2 none none), none], [3]⟩ := by
    simp [runPass, runPassAux, tryResolve, anchorPrev, anchorNext, canProcess, e0l, e2h]
  have p3 : runPass [GKind.vertex, .arc, .vertex, .border] parseK
      ⟨[some (parseK 0 none none),
        some (parseK 1 ((parseK 0 none none).getLast?) ((parseK 2 none none).head?)),
        some (parseK 2 none none), none], [3]⟩
      = ⟨[some (parseK 0 none none),
          some (parseK 1 ((parseK 0 none none).getLast?) ((parseK 2 none none).head?)),
          some (parseK 2 none none),
          some (parseK 3 ((parseK 2 none none).getLast?) ((parseK 0 none none).head?))],
         []⟩ := by
    simp [runPass, runPassAux, tryResolve, anchorPrev, anchorNext, canProcess, e2l, e0h]
  constructor
  · show (resolvePasses _ _ 2 _).worklist = [3]
    rw [resolvePasses, resolvePasses, resolvePasses, p1, p2]
  · show (resolvePasses _ _ 3 _).worklist = []
    rw [resolvePasses, resolvePasses, resolvePasses, resolvePasses, p1, p2, p3]

/-- C1 witness: the three-pass theorem instantiated at a concrete ring. -/
theorem resolution_convergence_three_passes_witness :
    (resolvePasses [GKind.vertex, .arc, .vertex, .border]
        (fun i _ _ => [((i : Int), 0)]) 2 (initState (Int × Int) 4)).worklist = [3]
    ∧ (resolvePasses [GKind.vertex, .arc, .vertex, .border]
        (fun i _ _ => [((i : Int), 0)]) 3 (initState (Int × Int) 4)).worklist = [] :=
  resolution_convergence_three_passes (Int × Int) (fun i _ _ => [((i : Int), 0)])
    (by decide) (by decide)

/-- C8 counterexample: for the ring `[Arc, Border]` the resolution loop
does abort on the first pass, but the `RuntimeError` message reports only
the COUNT of remaining components; it does not name the remaining indices
0 and 1 (their digits do not even occur in the message). -/
theorem deadlock_message_cex :
    resolveLoop [GKind.arc, GKind.border] (fun i _ _ => [((i : Int), 0)])
        (initState (Int × Int) 2)
      = .error "no progress made with 2 components remaining"
    ∧ (runPass [GKind.arc, GKind.border] (fun i _ _ => [((i : Int), 0)])
        (initState (Int × Int) 2)).worklist = [0, 1]
    ∧ ¬ ('0' ∈ "no progress made with 2 components remaining".toList)
    ∧ ¬ ('1' ∈ "no progress made with 2 components remaining".toList) := by
  decide

/-- C8 (amended): whenever a full pass removes zero indices from a
non-empty work-list, resolution aborts with a fatal `RuntimeError` whose
message reports the number of remaining unresolved components (not their
indices); in particular the two-component ring `[Arc, Border]` fails this
way on the first pass. -/
theorem deadlock_detection_progress_error (α : Type) (comps : List GKind)
    (parseK : Nat → Option α → Option α → List α) (st : RState α)
    (hne : ¬ (st.worklist = []))
    (hstuck : (runPass comps parseK st).worklist.length = st.worklist.length) :
    resolveLoop comps parseK st
      = .error ("no progress made with " ++ toString st.worklist.length ++
          " components remaining") := by
  rw [resolveLoop, resolveLoopFuel]
  simp [List.isEmpty_iff, hne, hstuck]

/-- C8 witness: the deadlock theorem instantiated at the `[Arc, Border]`
ring, which stalls on its very first pass. -/
theorem deadlock_detection_progress_error_witness :
    resolveLoop [GKind.arc, GKind.border] (fun i _ _ => [((i : Int), 0)])
        (initState (Int × Int) 2)
      = .error ("no progress made with "
          ++ toString (initState (Int × Int) 2).worklist.length
          ++ " components remaining") :=
  deadlock_detection_progress_error (Int × Int) [GKind.arc, GKind.border]
    (fun i _ _ => [((i : Int), 0)]) (initState (Int × Int) 2) (by decide) (by decide)

/-! ### Flattening and grammar theorems -/

/-- C2: the flattening's border-entry exclusion is NOT circular.  A Border
at index 0 adds `-1` (not `N - 1`) to the exclusion set, so the last slot's
vertex is kept — the code emits `[10, 2, 3]` where the spec's circular
exclusion emits `[10, 2]` (the Vertex at slot 3 anchors the border and
should be elided); and a Border at the last index adds `N` to the set, so
the `assert` subscript raises `IndexError` instead of eliding slot 0. -/
theorem flatten_border_boundary_bug :
    flatten_vertices [[(10 : Int)], [1], [2], [3]]
        [.border, .vertex, .vertex, .vertex] = some [10, 2, 3]
    ∧ flatten_vertices_spec [[(10 : Int)], [1], [2], [3]]
        [.border, .vertex, .vertex, .vertex] = [10, 2]
    ∧ get_border_entry_point_indices [.vertex, .vertex, .vertex, .border] = none
    ∧ flatten_vertices [[(0 : Int)], [1], [2], [3]]
        [.vertex, .vertex, .vertex, .border] = none
    ∧ flatten_vertices_spec [[(0 : Int)], [1], [2], [3]]
        [.vertex, .vertex, .vertex, .border] = [1, 3]
    ∧ flatten_vertices [[(0 : Int)], [10], [2]] [.vertex, .border, .vertex]
        = some [10]
    ∧ flatten_vertices_spec [[(0 : Int)], [10], [2]] [.vertex, .border, .vertex]
        = [10] := by
  decide

/-- C3: the `CIRCLE` center character class lacks the dot that the DMS
seconds may contain.  The vertex text `46 30 00.00 N 006 30 00.00 E` is
accepted by the DMS codec, yet `CIRCLE(46 30 00.00 N 006 30 00.00 E, 5)`
is rejected by the Circle matcher — and by every other matcher, so the
dispatcher raises UnrecognizedComponent.  The dot-free variant of the same
circle is matched fine, and the `ARC` class does include the dot. -/
theorem circle_grammar_dotted_center :
    is_valid_dms_format "46 30 00.00 N 006 30 00.00 E".toList = true
    ∧ circleMatches "CIRCLE(46 30 00.00 N 006 30 00.00 E, 5)".toList = false
    ∧ dispatchKind "CIRCLE(46 30 00.00 N 006 30 00.00 E, 5)".toList = none
    ∧ dispatchKind "CIRCLE(46 30 00 N 006 30 00 E, 5)".toList = some .circle
    ∧ dispatchKind "ARC(46 30 00.00 N 006 30 00.00 E, 5, cw)".toList = some .arc := by
  decide

/-! ### DMS decoding theorem -/

/-- C4: `parse_dms("46 30 00.00 N 006 30 00.00 E")` is exactly
`(6.5, 46.5)` as (longitude, latitude); and in general a successfully
converted match yields `deg + min/60 + sec/3600` per coordinate, negated
exactly when the hemisphere letter is W (longitude) resp. S (latitude). -/
theorem dms_decoding_correct :
    dms_string_to_decimal "46 30 00.00 N 006 30 00.00 E".toList
      = some (13 / 2, 93 / 2)
    ∧ ∀ (raw : DmsRaw) (dLon mLon dLat mLat : Nat) (sLon sLat : ℚ),
        parseNatDigits raw.degLon = some dLon →
        parseNatDigits raw.minLon = some mLon →
        parseFloatQ raw.secLon = some sLon →
        parseNatDigits raw.degLat = some dLat →
        parseNatDigits raw.minLat = some mLat →
        parseFloatQ raw.secLat = some sLat →
        raw.hemLon = 'E' ∨ raw.hemLon = 'W' →
        raw.hemLat = 'N' ∨ raw.hemLat = 'S' →
        dms_match_to_decimal raw = some
          ((if raw.hemLon = 'W' then -(dms_to_decimal dLon mLon sLon)
            else dms_to_decimal dLon mLon sLon),
           (if raw.hemLat = 'S' then -(dms_to_decimal dLat mLat sLat)
            else dms_to_decimal dLat mLat sLat)) := by
  constructor
  · have h : dmsLex "46 30 00.00 N 006 30 00.00 E".toList =
        some ⟨"46".toList, "30".toList, "00.00".toList, 'N',
              "006".toList, "30".toList, "00.00".toList, 'E'⟩ := by decide
    have e1 : parseNatDigits "006".toList = some 6 := by decide
    have e2 : parseNatDigits "30".toList = some 30 := by decide
    have e3 : parseNatDigits "46".toList = some 46 := by decide
    have hsp : List.splitOn '.' ['0', '0', '.', '0', '0'] = [['0', '0'], ['0', '0']] := by
      decide
    have e4 : parseFloatQ "00.00".toList = some 0 := by
      simp [parseFloatQ, hsp, show '0'.isDigit = true from by decide]
      norm_num [digitsVal]
    rw [dms_string_to_decimal, h, Option.bind]
    rw [dms_match_to_decimal]
    simp only [e1, e2, e3, e4, Option.bind_some, Option.some_bind]
    norm_num [dms_to_decimal]
  · intro raw dLon mLon dLat mLat sLon sLat hdLon hmLon hsLon hdLat hmLat hsLat hLon hLat
    rw [dms_match_to_decimal]
    simp only [hdLon, hmLon, hsLon, hdLat, hmLat, hsLat, Option.bind_some,
      Option.some_bind, Option.some.injEq]
    rcases hLon with h1 | h1 <;> rcases hLat with h2 | h2 <;> simp [h1, h2]

/-- C4 witness: the general conversion law applied to the captured groups
of `46 30 00.00 N 006 30 00.00 E`. -/
theorem dms_decoding_correct_witness :
    dms_match_to_decimal ⟨"46".toList, "30".toList, "00.00".toList, 'N',
        "006".toList, "30".toList, "00.00".toList, 'E'⟩ = some
      ((if ('E' : Char) = 'W' then -(dms_to_decimal 6 30 0) else dms_to_decimal 6 30 0),
       (if ('N' : Char) = 'S' then -(dms_to_decimal 46 30 0) else dms_to_decimal 46 30 0)) :=
  dms_decoding_correct.2
    ⟨"46".toList, "30".toList, "00.00".toList, 'N',
     "006".toList, "30".toList, "00.00".toList, 'E'⟩ 6 30 46 30 0 0
    (by decide) (by decide)
    (by simp [parseFloatQ, show List.splitOn '.' ['0', '0', '.', '0', '0']
          = [['0', '0'], ['0', '0']] from by decide,
          show '0'.isDigit = true from by decide]
        norm_num [digitsVal])
    (by decide) (by decide)
    (by simp [parseFloatQ, show List.splitOn '.' ['0', '0', '.', '0', '0']
          = [['0', '0'], ['0', '0']] from by decide,
          show '0'.isDigit = true from by decide]
        norm_num [digitsVal])
    (Or.inl rfl) (Or.inl rfl)

/-! ### Border partition and segment theorems -/

/-- Reading off a list by indices `0..len-1` gives the list back. -/
theorem map_getD_range {α : Type} (l : List α) (d : α) :
    (List.range l.length).map (fun i => l.getD i d) = l := by
  apply List.ext_getElem (by simp)
  intro i h1 h2
  simp [List.getD_eq_getElem?_getD, List.getElem?_eq_getElem h2]

/-- `range' s (m + n)` splits at `s + m`. -/
theorem range'_split (s m n : Nat) :
    List.range' s (m + n) = List.range' s m ++ List.range' (s + m) n := by
  have h := List.range'_append s m n 1
  rw [one_mul] at h
  rw [Nat.add_comm m n, ← h]

/-- C6: for distinct valid indices, the direct extraction and the
complementary extraction together cover every vertex of the polyline
exactly once, except the two shared endpoint vertices, which occur twice
(stated as a multiset identity). -/
theorem border_partition_correct {α : Type} [Inhabited α] (points : List α) (s e : Nat)
    (hs : s < points.length) (he : e < points.length) (hne : s ≠ e) :
    (↑(extract_points_in_range s e points) +
        ↑(extract_points_outside_range s e points) : Multiset α)
      = ↑points + {points.getD s default, points.getD e default} := by
  have hsplit2 : ({points.getD s default, points.getD e default} : Multiset α)
      = {points.getD s default} + {points.getD e default} := by
    simp [Multiset.insert_eq_cons, ← Multiset.singleton_add]
  rcases Nat.lt_or_ge s e with hlt | hge
  · have h_in : extract_points_in_range s e points
        = (List.range' s (e - s)).map (fun i => points.getD i default)
          ++ [points.getD e default] := by
      rw [extract_points_in_range, if_pos (Nat.le_of_lt hlt),
          show e + 1 - s = (e - s) + 1 by omega, List.range'_1_concat,
          show s + (e - s) = e by omega, List.map_append, List.map_cons, List.map_nil]
    have h_out : extract_points_outside_range s e points
        = ((List.range' e (points.length - e)).map (fun i => points.getD i default)
            ++ ((List.range' 0 s).map (fun i => points.getD i default)
              ++ [points.getD s default])).reverse := by
      rw [extract_points_outside_range, if_neg (by omega), List.range'_1_concat,
          Nat.zero_add, List.map_append, List.map_cons, List.map_nil]
    have h_pts : (↑points : Multiset α)
        = ↑((List.range' 0 s).map (fun i => points.getD i default))
          + ↑((List.range' s (e - s)).map (fun i => points.getD i default))
          + ↑((List.range' e (points.length - e)).map (fun i => points.getD i default)) := by
      conv_lhs => rw [← map_getD_range points default, List.range_eq_range',
        show points.length = s + ((e - s) + (points.length - e)) by omega,
        range'_split, range'_split, Nat.zero_add, show s + (e - s) = e by omega]
      simp only [List.map_append, List.append_assoc, Multiset.coe_add]
    rw [h_in, h_out, h_pts, hsplit2, Multiset.coe_reverse]
    simp only [← Multiset.coe_add, Multiset.coe_singleton]
    abel
  · have hgt : e < s := by omega
    have h_in : extract_points_in_range s e points
        = (List.range' s (points.length - s)).map (fun i => points.getD i default)
          ++ ((List.range' 0 e).map (fun i => points.getD i default)
            ++ [points.getD e default]) := by
      rw [extract_points_in_range, if_neg (by omega), List.range'_1_concat,
          Nat.zero_add, List.map_append, List.map_cons, List.map_nil]
    have h_out : extract_points_outside_range s e points
        = ((List.range' e (s - e)).map (fun i => points.getD i default)
            ++ [points.getD s default]).reverse := by
      rw [extract_points_outside_range, if_pos (Nat.le_of_lt hgt),
          show s + 1 - e = (s - e) + 1 by omega, List.range'_1_concat,
          show e + (s - e) = s by omega, List.map_append, List.map_cons, List.map_nil]
    have h_pts : (↑points : Multiset α)
        = ↑((List.range' 0 e).map (fun i => points.getD i default))
          + ↑((List.range' e (s - e)).map (fun i => points.getD i default))
          + ↑((List.range' s (points.length - s)).map (fun i => points.getD i default)) := by
      conv_lhs => rw [← map_getD_range points default, List.range_eq_range',
        show points.length = e + ((s - e) + (points.length - s)) by omega,
        range'_split, range'_split, Nat.zero_add, show e + (s - e) = s by omega]
      simp only [List.map_append, List.append_assoc, Multiset.coe_add]
    rw [h_in, h_out, h_pts, hsplit2, Multiset.coe_reverse]
    simp only [← Multiset.coe_add, Multiset.coe_singleton]
    abel

/-- C6 witness: the partition identity on a concrete four-vertex border. -/
theorem border_partition_correct_witness :
    (↑(extract_points_in_range 1 3 [10, 11, 12, 13]) +
        ↑(extract_points_outside_range 1 3 [10, 11, 12, 13]) : Multiset Nat)
      = ↑([10, 11, 12, 13] : List Nat) +
        {([10, 11, 12, 13] : List Nat).getD 1 default,
         ([10, 11, 12, 13] : List Nat).getD 3 default} :=
  border_partition_correct [10, 11, 12, 13] 1 3 (by decide) (by decide) (by decide)

/-- `head?` of a mapped nonempty `range'`. -/
theorem head?_map_range' {α : Type} (f : Nat → α) (s m : Nat) (hm : 0 < m) :
    ((List.range' s m).map f).head? = some (f s) := by
  obtain ⟨k, rfl⟩ : ∃ k, m = k + 1 := ⟨m - 1, by omega⟩
  rw [show List.range' s (k + 1) = s :: List.range' (s + 1) k from List.range'_succ s k 1]
  simp

/-- `getLast?` of a mapped nonempty `range'`. -/
theorem getLast?_map_range' {α : Type} (f : Nat → α) (s m : Nat) (hm : 0 < m) :
    ((List.range' s m).map f).getLast? = some (f (s + m - 1)) := by
  obtain ⟨k, rfl⟩ : ∃ k, m = k + 1 := ⟨m - 1, by omega⟩
  rw [List.range'_1_concat]
  simp [show s + (k + 1) - 1 = s + k by omega]

/-- A direct extraction runs from the vertex at `start_index` to the vertex
at `end_index`. -/
theorem extract_in_head_last {α : Type} [Inhabited α] (s e : Nat) (pts : List α)
    (hs : s < pts.length) :
    (extract_points_in_range s e pts).head? = some (pts.getD s default)
    ∧ (extract_points_in_range s e pts).getLast? = some (pts.getD e default) := by
  rw [extract_points_in_range]
  split
  · constructor
    · rw [head?_map_range' _ _ _ (by omega)]
    · rw [getLast?_map_range' _ _ _ (by omega)]
      congr 2
      omega
  · constructor
    · rw [List.head?_append, head?_map_range' _ _ _ (by omega)]
      rfl
    · rw [List.getLast?_append, getLast?_map_range' _ _ _ (by omega)]
      simp

/-- A complementary extraction, after its final reversal, also runs from
the vertex at `start_index` to the vertex at `end_index`. -/
theorem extract_out_head_last {α : Type} [Inhabited α] (s e : Nat) (pts : List α)
    (he : e < pts.length) :
    (extract_points_outside_range s e pts).head? = some (pts.getD s default)
    ∧ (extract_points_outside_range s e pts).getLast? = some (pts.getD e default) := by
  rw [extract_points_outside_range]
  rw [List.head?_reverse, List.getLast?_reverse]
  split
  · constructor
    · rw [getLast?_map_range' _ _ _ (by omega)]
      congr 2
      omega
    · rw [head?_map_range' _ _ _ (by omega)]
  · constructor
    · rw [List.getLast?_append, getLast?_map_range' _ _ _ (by omega)]
      simp
    · rw [List.head?_append, head?_map_range' _ _ _ (by omega)]
      rfl

/-- The nearest-vertex query returns a valid index. -/
theorem nearestIdx_lt (pts : List (ℚ × ℚ)) (p : ℚ × ℚ) (h : 0 < pts.length) :
    nearestIdx pts p < pts.length := by
  rw [nearestIdx]
  have key : ∀ (l : List Nat) (b : Nat), b < pts.length → (∀ x ∈ l, x < pts.length) →
      l.foldl (fun best i =>
        if sqDistQ (pts.getD i (0, 0)) p < sqDistQ (pts.getD best (0, 0)) p then i
        else best) b < pts.length := by
    intro l
    induction l with
    | nil => intro b hb _; simpa using hb
    | cons hd tl ih =>
      intro b hb hmem
      rw [List.foldl_cons]
      apply ih
      · split
        · exact hmem hd (List.mem_cons_self hd tl)
        · exact hb
      · intro x hx
        exact hmem x (List.mem_cons_of_mem hd hx)
  exact key _ 0 h (by intro x hx; simpa using List.mem_range.mp hx)

/-- `_points_equal` holds reflexively (`|0| < 1e-9`). -/
theorem pointsEqual_refl (p : ℚ × ℚ) : pointsEqual p p = true := by
  simp [pointsEqual]

/-- C7: whenever `get_border_segment` returns an actual segment — for both
`invert = false` and `invert = true` — the segment is non-empty, its first
point is the border vertex nearest to the start anchor, its last point the
border vertex nearest to the end anchor, and (the tolerance validation
having passed) those two points are within `tolerance_m` of the respective
anchors under the geodesic distance `distM`. -/
theorem border_segment_endpoints (start endp : ℚ × ℚ) (border : List (ℚ × ℚ))
    (invert : Bool) (distM : ℚ × ℚ → ℚ × ℚ → ℚ) (tol : ℚ) (seg : List (ℚ × ℚ))
    (hres : get_border_segment start endp border invert distM tol = .ok (some seg)) :
    ¬ (seg = [])
    ∧ seg.head? = some (border.getD (nearestIdx border start) (0, 0))
    ∧ seg.getLast? = some (border.getD (nearestIdx border endp) (0, 0))
    ∧ distM start (border.getD (nearestIdx border start) (0, 0)) ≤ tol
    ∧ distM endp (border.getD (nearestIdx border endp) (0, 0)) ≤ tol := by
  simp only [get_border_segment] at hres
  by_cases h1 : nearestIdx border start = nearestIdx border endp
  · rw [if_pos h1] at hres
    exact absurd hres (by simp)
  rw [if_neg h1] at hres
  have hlen : 0 < border.length := by
    rcases border with _ | ⟨b, bs⟩
    · exact absurd rfl h1
    · simp
  have hsl := nearestIdx_lt border start hlen
  have hel := nearestIdx_lt border endp hlen
  by_cases h2 : distM start (border.getD (nearestIdx border start) (0, 0)) > tol
  · rw [if_pos h2] at hres
    exact absurd hres (by simp)
  rw [if_neg h2] at hres
  by_cases h3 : distM endp (border.getD (nearestIdx border endp) (0, 0)) > tol
  · rw [if_pos h3] at hres
    exact absurd hres (by simp)
  rw [if_neg h3] at hres
  have hseg :
      (if !invert then
          extract_points_in_range (nearestIdx border start) (nearestIdx border endp) border
        else
          extract_points_outside_range (nearestIdx border start) (nearestIdx border endp)
            border).head? = some (border.getD (nearestIdx border start) (0, 0))
      ∧ (if !invert then
          extract_points_in_range (nearestIdx border start) (nearestIdx border endp) border
        else
          extract_points_outside_range (nearestIdx border start) (nearestIdx border endp)
            border).getLast? = some (border.getD (nearestIdx border endp) (0, 0)) := by
    cases invert
    · simpa using extract_in_head_last (nearestIdx border start) (nearestIdx border endp)
        border hsl
    · simpa using extract_out_head_last (nearestIdx border start) (nearestIdx border endp)
        border hel
  rw [hseg.1, hseg.2] at hres
  simp only [pointsEqual_refl, Bool.true_and] at hres
  have hne : ¬ ((if !invert then
      extract_points_in_range (nearestIdx border start) (nearestIdx border endp) border
    else
      extract_points_outside_range (nearestIdx border start) (nearestIdx border endp)
        border) = []) := by
    intro hnil
    rw [hnil] at hseg
    exact absurd hseg.1 (by simp)
  rw [show ((if !invert then
      extract_points_in_range (nearestIdx border start) (nearestIdx border endp) border
    else
      extract_points_outside_range (nearestIdx border start) (nearestIdx border endp)
        border).isEmpty) = false by simpa using hne] at hres
  simp only [Bool.not_false, if_pos] at hres
  have hseg_eq : (if !invert then
      extract_points_in_range (nearestIdx border start) (nearestIdx border endp) border
    else
      extract_points_outside_range (nearestIdx border start) (nearestIdx border endp)
        border) = seg := by
    simpa using hres
  rw [hseg_eq] at hseg hne
  exact ⟨hne, hseg.1, hseg.2, le_of_not_lt h2, le_of_not_lt h3⟩

/-- C7 witness: a three-vertex border with anchors on its first and last
vertices, direct extraction. -/
theorem border_segment_endpoints_witness :
    ¬ (([((0 : ℚ), (0 : ℚ)), (1, 0), (2, 0)] : List (ℚ × ℚ)) = [])
    ∧ ([((0 : ℚ), (0 : ℚ)), (1, 0), (2, 0)] : List (ℚ × ℚ)).head?
        = some (([((0 : ℚ), (0 : ℚ)), (1, 0), (2, 0)] : List (ℚ × ℚ)).getD
            (nearestIdx [((0 : ℚ), (0 : ℚ)), (1, 0), (2, 0)] (0, 0)) (0, 0))
    ∧ ([((0 : ℚ), (0 : ℚ)), (1, 0), (2, 0)] : List (ℚ × ℚ)).getLast?
        = some (([((0 : ℚ), (0 : ℚ)), (1, 0), (2, 0)] : List (ℚ × ℚ)).getD
            (nearestIdx [((0 : ℚ), (0 : ℚ)), (1, 0), (2, 0)] (2, 0)) (0, 0))
    ∧ sqDistQ (0, 0) (([((0 : ℚ), (0 : ℚ)), (1, 0), (2, 0)] : List (ℚ × ℚ)).getD
        (nearestIdx [((0 : ℚ), (0 : ℚ)), (1, 0), (2, 0)] (0, 0)) (0, 0)) ≤ 30
    ∧ sqDistQ (2, 0) (([((0 : ℚ), (0 : ℚ)), (1, 0), (2, 0)] : List (ℚ × ℚ)).getD
        (nearestIdx [((0 : ℚ), (0 : ℚ)), (1, 0), (2, 0)] (2, 0)) (0, 0)) ≤ 30 :=
  border_segment_endpoints (0, 0) (2, 0) [((0 : ℚ), (0 : ℚ)), (1, 0), (2, 0)] false
    sqDistQ 30 [((0 : ℚ), (0 : ℚ)), (1, 0), (2, 0)] (by
      have n1 : nearestIdx [((0 : ℚ), (0 : ℚ)), (1, 0), (2, 0)] (0, 0) = 0 := by
        norm_num [nearestIdx, sqDistQ, show List.range 3 = [0, 1, 2] from rfl]
      have n2 : nearestIdx [((0 : ℚ), (0 : ℚ)), (1, 0), (2, 0)] (2, 0) = 2 := by
        norm_num [nearestIdx, sqDistQ, show List.range 3 = [0, 1, 2] from rfl]
      have hex : extract_points_in_range 0 2 [((0 : ℚ), (0 : ℚ)), (1, 0), (2, 0)]
          = [((0 : ℚ), (0 : ℚ)), (1, 0), (2, 0)] := by
        simp [extract_points_in_range, show List.range' 0 3 = [0, 1, 2] from rfl]
      simp only [get_border_segment, n1, n2]
      rw [if_neg (by decide : ¬ ((0 : Nat) = 2))]
      rw [show ([((0 : ℚ), (0 : ℚ)), (1, 0), (2, 0)] : List (ℚ × ℚ)).getD 0 (0, 0)
          = ((0 : ℚ), (0 : ℚ)) from rfl]
      rw [show ([((0 : ℚ), (0 : ℚ)), (1, 0), (2, 0)] : List (ℚ × ℚ)).getD 2 (0, 0)
          = ((2 : ℚ), (0 : ℚ)) from rfl]
      rw [if_neg (by norm_num [sqDistQ])]
      rw [if_neg (by norm_num [sqDistQ])]
      simp only [Bool.not_false, if_true, hex]
      norm_num [pointsEqual])

/-- C10: when both anchors snap to the same nearest border vertex,
`get_border_segment` returns NoSegment BEFORE any tolerance validation:
the result is `None` for every distance function and tolerance, so anchors
arbitrarily far from the border never raise OutOfTolerance here. -/
theorem degenerate_skips_tolerance (start endp : ℚ × ℚ) (border : List (ℚ × ℚ))
    (invert : Bool) (distM : ℚ × ℚ → ℚ × ℚ → ℚ) (tol : ℚ)
    (h : nearestIdx border start = nearestIdx border endp) :
    get_border_segment start endp border invert distM tol = .ok none := by
  simp only [get_border_segment]
  rw [if_pos h]

/-- C10 witness: two anchors, both over 100 units from a two-vertex border
and snapping to its second vertex, are silently accepted although the
squared distance grossly exceeds the tolerance 30. -/
theorem degenerate_skips_tolerance_witness :
    get_border_segment (100, 100) (101, 100) [((0 : ℚ), (0 : ℚ)), (10, 0)] false
        sqDistQ 30 = .ok none
    ∧ sqDistQ (100, 100) ((10 : ℚ), (0 : ℚ)) > 30 :=
  ⟨degenerate_skips_tolerance (100, 100) (101, 100) [((0 : ℚ), (0 : ℚ)), (10, 0)]
      false sqDistQ 30
      (by norm_num [nearestIdx, sqDistQ, show List.range 2 = [0, 1] from rfl]),
    by norm_num [sqDistQ]⟩

/-! ### Curved-geometry theorems -/

/-- Closed form of the arc sampling loop: the k-th interior point sits at
the start angle advanced by `(k+1)` signed increments. -/
theorem arcLoop_eq_map (center : ℝ × ℝ) (radius_m inc sign : ℝ) (n : Nat) (a : ℝ) :
    arcLoop center radius_m inc sign n a
      = (List.range n).map fun (k : Nat) =>
          get_edge_point center (a + inc * sign * ((k : ℝ) + 1)) radius_m := by
  induction n generalizing a with
  | zero => simp [arcLoop]
  | succ m ih =>
    rw [arcLoop, ih (a + inc * sign), List.range_succ_eq_map, List.map_cons, List.map_map]
    congr 1
    · congr 1
      push_cast
      ring
    · apply List.map_congr_left
      intro k hk
      congr 1
      push_cast
      ring

/-- The circle loop emits exactly `intermediate_points` points. -/
theorem circleLoop_length (center : ℝ × ℝ) (radius_m inc : ℝ) (n : Nat) (a : ℝ) :
    (circleLoop center radius_m inc n a).length = n := by
  induction n generalizing a with
  | zero => rfl
  | succ m ih => rw [circleLoop, List.length_cons, ih]

/-- Every edge point lies at squared distance `radius_m ^ 2` from the
center. -/
theorem sqDistR_get_edge_point (c : ℝ × ℝ) (θ r : ℝ) :
    sqDistR (get_edge_point c θ r) c = r ^ 2 := by
  simp only [sqDistR, get_edge_point, get_unit_vector]
  have h := Real.sin_sq_add_cos_sq θ
  linear_combination (r ^ 2) * h

/-- `atan2` ranges over `(-pi, pi]`. -/
theorem atan2_mem (y x : ℝ) : -Real.pi < atan2 y x ∧ atan2 y x ≤ Real.pi := by
  have hpi := Real.pi_pos
  rw [atan2]
  split_ifs with h1 h2 h3 h4 h5
  · exact ⟨by linarith [Real.neg_pi_div_two_lt_arctan (y / x)],
      by linarith [Real.arctan_lt_pi_div_two (y / x)]⟩
  · have hyx : y / x ≤ 0 := div_nonpos_of_nonneg_of_nonpos h3 (le_of_lt h2)
    have harct : Real.arctan (y / x) ≤ 0 := by
      have := Real.arctan_strictMono.monotone hyx
      rwa [Real.arctan_zero] at this
    exact ⟨by linarith [Real.neg_pi_div_two_lt_arctan (y / x)], by linarith⟩
  · have hyx : 0 < y / x := div_pos_of_neg_of_neg (by linarith) h2
    have harct : 0 < Real.arctan (y / x) := by
      have := Real.arctan_strictMono hyx
      rwa [Real.arctan_zero] at this
    exact ⟨by linarith, by linarith [Real.arctan_lt_pi_div_two (y / x)]⟩
  · exact ⟨by linarith, by linarith⟩
  · exact ⟨by linarith, by linarith⟩
  · exact ⟨by linarith, by linarith⟩

/-- For azimuths produced by `atan2`, the sweep is in `[0, 2*pi)` — in
particular the function's `assert angle >= 0` never fires. -/
theorem get_total_angle_rad_mem (θs θe : ℝ) (hs1 : -Real.pi < θs) (hs2 : θs ≤ Real.pi)
    (he1 : -Real.pi < θe) (he2 : θe ≤ Real.pi) (dir : ArcDir) :
    0 ≤ get_total_angle_rad θs θe dir
    ∧ get_total_angle_rad θs θe dir < 2 * Real.pi := by
  have hpi := Real.pi_pos
  cases dir <;> simp only [get_total_angle_rad] <;> split_ifs <;>
    constructor <;> simp_all <;> linarith

/-- C5: the planar arc generator returns exactly `n + 2` points: the exact
start azimuth, `n` interior points advancing from it in steps of
`sweep/(n+1)` signed `+1` for ccw and `-1` for cw, and the exact end
azimuth — all at distance `radius_nm * 1852` (stated via squared planar
distance) from the projected center; the sweep equals the raw signed
difference plus `2*pi` exactly when that difference is negative, and lies
in `[0, 2*pi)`. -/
theorem arc_sampling_correct (center start endp : ℝ × ℝ) (radius_nm : ℝ)
    (direction : ArcDir) (n : Nat) :
    arc_around_point_grid_metric center start endp (nm_to_m radius_nm) direction n
      = get_edge_point center (get_azimuth_rad center start) (nm_to_m radius_nm)
        :: (((List.range n).map fun (k : Nat) =>
              get_edge_point center
                (get_azimuth_rad center start
                  + (get_total_angle_rad (get_azimuth_rad center start)
                      (get_azimuth_rad center endp) direction / (1 + (n : ℝ)))
                    * (if direction = .ccw then 1 else -1) * ((k : ℝ) + 1))
                (nm_to_m radius_nm))
            ++ [get_edge_point center (get_azimuth_rad center endp) (nm_to_m radius_nm)])
    ∧ (arc_around_point_grid_metric center start endp (nm_to_m radius_nm)
        direction n).length = n + 2
    ∧ (arc_around_point_grid_metric center start endp (nm_to_m radius_nm)
          direction n).map (fun p => sqDistR p center)
        = List.replicate (n + 2) (nm_to_m radius_nm ^ 2)
    ∧ 0 ≤ get_total_angle_rad (get_azimuth_rad center start)
        (get_azimuth_rad center endp) direction
    ∧ get_total_angle_rad (get_azimuth_rad center start)
        (get_azimuth_rad center endp) direction < 2 * Real.pi
    ∧ get_total_angle_rad (get_azimuth_rad center start)
          (get_azimuth_rad center endp) direction
        = (if direction = .ccw
            then get_azimuth_rad center endp - get_azimuth_rad center start
            else get_azimuth_rad center start - get_azimuth_rad center endp)
          + (if (if direction = .ccw
                then get_azimuth_rad center endp - get_azimuth_rad center start
                else get_azimuth_rad center start - get_azimuth_rad center endp) < 0
             then 2 * Real.pi else 0) := by
  have hmain :
      arc_around_point_grid_metric center start endp (nm_to_m radius_nm) direction n
        = get_edge_point center (get_azimuth_rad center start) (nm_to_m radius_nm)
          :: (((List.range n).map fun (k : Nat) =>
                get_edge_point center
                  (get_azimuth_rad center start
                    + (get_total_angle_rad (get_azimuth_rad center start)
                        (get_azimuth_rad center endp) direction / (1 + (n : ℝ)))
                      * (if direction = .ccw then 1 else -1) * ((k : ℝ) + 1))
                  (nm_to_m radius_nm))
              ++ [get_edge_point center (get_azimuth_rad center endp)
                    (nm_to_m radius_nm)]) := by
    rw [arc_around_point_grid_metric]
    rw [arcLoop_eq_map]
  have hs := atan2_mem (start.2 - center.2) (start.1 - center.1)
  have he := atan2_mem (endp.2 - center.2) (endp.1 - center.1)
  have hsweep := get_total_angle_rad_mem (get_azimuth_rad center start)
    (get_azimuth_rad center endp) hs.1 hs.2 he.1 he.2 direction
  refine ⟨hmain, ?_, ?_, hsweep.1, hsweep.2, ?_⟩
  · rw [hmain]
    simp
  · rw [hmain]
    simp only [List.map_cons, List.map_append, List.map_map, List.map_nil,
      Function.comp_def, sqDistR_get_edge_point]
    rw [List.map_const', List.length_range]
    rw [show List.replicate (n + 2) (nm_to_m radius_nm ^ 2)
        = nm_to_m radius_nm ^ 2 :: List.replicate (n + 1) (nm_to_m radius_nm ^ 2) from
          List.replicate_succ (nm_to_m radius_nm ^ 2) (n + 1),
      List.replicate_succ']
  · rw [get_total_angle_rad, get_azimuth_rad, get_azimuth_rad]
    split_ifs <;> ring

/-- C9: the dispatcher's parsers hardwire `intermediate_points = 100`, so
every resolved Arc contributes exactly 102 points and every resolved
Circle exactly 100 points, for every input. -/
theorem fixed_sample_density (proj inv : ℝ × ℝ → ℝ × ℝ)
    (center previous subsequent c2 : ℝ × ℝ) (radius_nm r2 : ℝ) (direction : ArcDir) :
    (ArcInputGeometry_parse proj inv center previous subsequent radius_nm
        direction).length = 102
    ∧ (CircleInputGeometry_parse proj inv c2 r2).length = 100 := by
  constructor
  · rw [ArcInputGeometry_parse, arc_around_point, List.length_map,
      arc_around_point_grid_metric]
    simp [arcLoop_eq_map]
  · rw [CircleInputGeometry_parse, circle_around_point, List.length_map,
      circle_around_point_grid_metric, circleLoop_length]
